import Mathlib

/-!
Verification of the envldr environment-variable loader (latest snapshot:
`getEnv` / `getParser` / `loadEnv` / `LoadEnvUserParser` / `LoadEnv`).

The Go code is shallowly embedded: reflective struct traversal becomes a
recursion over an explicit type/value tree, `os.LookupEnv` and
`json.Unmarshal` become abstract collaborator functions (they are external
to the package), and machine integers become `Int` with explicit wrapping
where `reflect.Value.Convert` wraps.
-/

namespace Envldr

/-- Kind mirrors reflect.Kind for the kinds that can occur in this model. -/
inductive Kind where
  | invalid
  | bool
  | int
  | int8
  | int16
  | int32
  | int64
  | uint
  | uint8
  | uint16
  | uint32
  | uint64
  | uintptr
  | float32
  | float64
  | complex64
  | complex128
  | array
  | chan
  | fn
  | iface
  | map
  | ptr
  | slice
  | string
  | struct
deriving DecidableEq, Repr

/-- kindName mirrors reflect.Kind.String for the kinds above. -/
def kindName : Kind → String
  | .invalid => "invalid"
  | .bool => "bool"
  | .int => "int"
  | .int8 => "int8"
  | .int16 => "int16"
  | .int32 => "int32"
  | .int64 => "int64"
  | .uint => "uint"
  | .uint8 => "uint8"
  | .uint16 => "uint16"
  | .uint32 => "uint32"
  | .uint64 => "uint64"
  | .uintptr => "uintptr"
  | .float32 => "float32"
  | .float64 => "float64"
  | .complex64 => "complex64"
  | .complex128 => "complex128"
  | .array => "array"
  | .chan => "chan"
  | .fn => "func"
  | .iface => "interface"
  | .map => "map"
  | .ptr => "ptr"
  | .slice => "slice"
  | .string => "string"
  | .struct => "struct"

/-- GoErr models the error values the loader can return (strconv range and
format errors carry the offending input, json/float/complex collaborator
failures carry a message). -/
inductive GoErr where
  | errRange (input : String)
  | errMalformed (input : String)
  | errCustom (msg : String)
deriving DecidableEq, Repr

mutual
/-- GoType models the reflect.Type of a field: a non-composite leaf type
identified by its kind, a struct with an ordered field list, or a pointer. -/
inductive GoType where
  | prim (k : Kind)
  | strukt (fs : Fields)
  | ptr (t : GoType)
deriving DecidableEq, Repr

/-- Fields is the ordered list of declared struct fields. -/
inductive Fields where
  | fnil
  | fcons (f : FieldDecl) (fs : Fields)
deriving DecidableEq, Repr

/-- FieldDecl models reflect.StructField: the three tag lookups
(`env_var`, `env_parser`, `env_params`, each `none` when the tag is absent),
the exportedness test `PkgPath == ""`, and the declared type. -/
inductive FieldDecl where
  | mk (varTag : Option String) (parserTag : Option String)
      (paramsTag : Option String) (exported : Bool) (ty : GoType)
deriving DecidableEq, Repr
end

/-- varTag is the `env_var` tag lookup result of a field. -/
def FieldDecl.varTag : FieldDecl → Option String
  | .mk v _ _ _ _ => v

/-- parserTag is the `env_parser` tag lookup result of a field. -/
def FieldDecl.parserTag : FieldDecl → Option String
  | .mk _ p _ _ _ => p

/-- paramsTag is the `env_params` tag lookup result of a field. -/
def FieldDecl.paramsTag : FieldDecl → Option String
  | .mk _ _ q _ _ => q

/-- exported tells whether the field is exported (Go: `PkgPath == ""`). -/
def FieldDecl.exported : FieldDecl → Bool
  | .mk _ _ _ e _ => e

/-- ty is the declared type of the field. -/
def FieldDecl.ty : FieldDecl → GoType
  | .mk _ _ _ _ t => t

/-- kindOfTy mirrors reflect.Type.Kind. -/
def kindOfTy : GoType → Kind
  | .prim k => k
  | .strukt _ => .struct
  | .ptr _ => .ptr

/-- ptrElem mirrors reflect.Type.Elem on pointer types (only ever applied
to pointer types in the source). -/
def ptrElem : GoType → GoType
  | .ptr te => te
  | t => t

mutual
/-- Value models a runtime Go value: integers of any integer kind, strings,
booleans, an opaque leaf carrier for the abstractly modelled kinds
(floats, complex numbers, slices, maps, channels, ...), struct values, and
pointers (nil or pointing at a value). -/
inductive Value where
  | vint (k : Kind) (n : Int)
  | vstr (s : String)
  | vbool (b : Bool)
  | vraw (k : Kind) (payload : String)
  | vstruct (vs : Values)
  | vptrNil
  | vptrSome (v : Value)
deriving DecidableEq, Repr

/-- Values is the ordered list of a struct value's field values. -/
inductive Values where
  | vnil
  | vcons (v : Value) (vs : Values)
deriving DecidableEq, Repr
end

/-- len is the number of values in a struct value's field list. -/
def Values.len : Values → Nat
  | .vnil => 0
  | .vcons _ vs => vs.len + 1

/-- getD returns the value at an index, or a designated out-of-range
marker. -/
def Values.getD : Values → Nat → Value
  | .vnil, _ => .vraw .invalid "out-of-range"
  | .vcons v _, 0 => v
  | .vcons _ vs, n + 1 => vs.getD n

/-- len is the number of declared fields. -/
def Fields.len : Fields → Nat
  | .fnil => 0
  | .fcons _ fs => fs.len + 1

/-- getD returns the field declaration at an index, or a designated
out-of-range marker. -/
def Fields.getD : Fields → Nat → FieldDecl
  | .fnil, _ => .mk none none none false (.prim .invalid)
  | .fcons f _, 0 => f
  | .fcons _ fs, n + 1 => fs.getD n

/-- Env models the process environment consumed through os.LookupEnv. -/
abbrev Env := String → Option String

/-- separator is the parameter-list token separator constant of the source. -/
def separator : Char := ';'

/-- equal is the key/value separator constant of the source. -/
def equal : Char := '='

/-- splitCharList splits a character list at every occurrence of `sep`,
like Go's strings.Split with a one-character separator (the separators of
the source, `;` and `=`, are one character). -/
def splitCharList (sep : Char) : List Char → List (List Char)
  | [] => [[]]
  | c :: cs =>
    let r := splitCharList sep cs
    if c = sep then [] :: r
    else
      match r with
      | h :: t => (c :: h) :: t
      | [] => [[c]]

/-- goSplit mirrors strings.Split for a one-character separator. -/
def goSplit (s : String) (sep : Char) : List String :=
  (splitCharList sep s.toList).map (fun l => String.mk l)

/-- goContains mirrors strings.Contains for a one-character needle. -/
def goContains (s : String) (c : Char) : Bool :=
  s.toList.contains c

/-- kvSplit models `kp := strings.Split(v, equal); (kp[0], kp[1])`: the
first two segments of the split; the fallback is unreachable because the
source only splits tokens that contain the separator. -/
def kvSplit (v : String) : String × String :=
  match goSplit v equal with
  | k :: vl :: _ => (k, vl)
  | _ => ("", "")

/-- mapSet models Go map assignment `m[k] = v` on an association list:
a later assignment to the same key overwrites the earlier one. -/
def mapSet (m : List (String × String)) (k v : String) : List (String × String) :=
  match m with
  | [] => [(k, v)]
  | (k', v') :: rest => if k' = k then (k, v) :: rest else (k', v') :: mapSet rest k v

/-- digitsToNat interprets a character list as a base-10 numeral,
failing on any non-digit. -/
def digitsToNat : List Char → Option Nat
  | [] => some 0
  | c :: cs =>
    if c.isDigit then
      (digitsToNat cs).map (fun n => (c.toNat - 48) * 10 ^ cs.length + n)
    else
      none

/-- goParseInt models strconv.ParseInt(s, 10, bitSize): optional sign,
base-10 digits, and a range check against the signed range of the given
bit width; bit width 0 selects the platform-native width, 64 bits here
(the range error also carries a clamped value in Go, but every caller in
the source aborts on the error, so the Except model is faithful). -/
def goParseInt (s : String) (bitSize : Nat) : Except GoErr Int :=
  let b := if bitSize = 0 then 64 else bitSize
  let cs := s.toList
  let signDigits : Bool × List Char :=
    match cs with
    | '-' :: rest => (true, rest)
    | '+' :: rest => (false, rest)
    | rest => (false, rest)
  match signDigits with
  | (neg, ds) =>
    if ds.isEmpty then .error (.errMalformed s)
    else
      match digitsToNat ds with
      | none => .error (.errMalformed s)
      | some n =>
        let i : Int := if neg then -(n : Int) else (n : Int)
        if -(2 ^ (b - 1) : Int) ≤ i ∧ i < (2 ^ (b - 1) : Int) then .ok i
        else .error (.errRange s)

/-- goParseUint models strconv.ParseUint(s, 10, bitSize): base-10 digits
with no sign, range-checked against the unsigned range of the width;
width 0 selects the native 64-bit width. -/
def goParseUint (s : String) (bitSize : Nat) : Except GoErr Int :=
  let b := if bitSize = 0 then 64 else bitSize
  let cs := s.toList
  if cs.isEmpty then .error (.errMalformed s)
  else
    match digitsToNat cs with
    | none => .error (.errMalformed s)
    | some n =>
      if (n : Int) < (2 ^ b : Int) then .ok (n : Int)
      else .error (.errRange s)

/-- goParseBool models strconv.ParseBool with its exact accepted literal
spellings. -/
def goParseBool (s : String) : Except GoErr Bool :=
  if s = "1" ∨ s = "t" ∨ s = "T" ∨ s = "TRUE" ∨ s = "true" ∨ s = "True" then .ok true
  else if s = "0" ∨ s = "f" ∨ s = "F" ∨ s = "FALSE" ∨ s = "false" ∨ s = "False" then .ok false
  else .error (.errMalformed s)

/-- kindWidth is the storage width in bits of each integer kind (the
platform-native `int`/`uint` are 64-bit here). -/
def kindWidth : Kind → Nat
  | .int8 | .uint8 => 8
  | .int16 | .uint16 => 16
  | .int32 | .uint32 => 32
  | _ => 64

/-- kindSigned tells whether an integer kind is signed. -/
def kindSigned : Kind → Bool
  | .int | .int8 | .int16 | .int32 | .int64 => true
  | _ => false

/-- wrapSigned reduces an integer into the signed range of a bit width
(two's-complement truncation). -/
def wrapSigned (w : Nat) (i : Int) : Int :=
  (i + 2 ^ (w - 1)) % 2 ^ w - 2 ^ (w - 1)

/-- wrapUnsigned reduces an integer into the unsigned range of a bit
width. -/
def wrapUnsigned (w : Nat) (i : Int) : Int :=
  i % 2 ^ w

/-- convertToKind models reflect.Value.Convert from a 64-bit integer to an
integer type of the given kind: two's-complement truncation to the kind's
width. -/
def convertToKind (k : Kind) (i : Int) : Int :=
  if kindSigned k then wrapSigned (kindWidth k) i else wrapUnsigned (kindWidth k) i

/-- bitSizeMap mirrors the source's `bitSizeMap`, a Go map from kinds to
parse bit widths; a kind that is absent from the map (notably Int8 and
Uint8) yields the Go zero value 0, exactly as a missing map key does. -/
def bitSizeMap : Kind → Nat
  | .int => 0
  | .int16 => 16
  | .int32 => 32
  | .int64 => 64
  | .uint => 0
  | .uint16 => 16
  | .uint32 => 32
  | .uint64 => 64
  | .float32 => 32
  | .float64 => 64
  | .complex64 => 64
  | .complex128 => 128
  | _ => 0

/-- Parser mirrors the source's Parser function type: declared type, raw
string, positional parameters and keyword parameters, yielding a typed
value or an error. -/
def Parser : Type :=
  GoType → String → List String → List (String × String) → Except GoErr Value

/-- Collab collects the collaborator capabilities the source delegates to:
json.Unmarshal into a fresh zero value of a type, and the
strconv float/complex parsers, which no claim depends on and which are
therefore modelled as abstract pure functions (parse plus the subsequent
kind conversion folded into one). -/
structure Collab where
  jsonUnmarshal : GoType → String → Except GoErr Value
  parseFloat : Kind → String → Except GoErr Value
  parseComplex : Kind → String → Except GoErr Value

/-- intParser mirrors the source: ParseInt at the bitSizeMap width of the
kind, returned unchanged for Int64 and reflect-converted (two's-complement
truncation) to the declared kind otherwise. -/
def intParser : Parser := fun t val _ _ =>
  match goParseInt val (bitSizeMap (kindOfTy t)) with
  | .error e => .error e
  | .ok i =>
    if kindOfTy t = .int64 then .ok (.vint .int64 i)
    else .ok (.vint (kindOfTy t) (convertToKind (kindOfTy t) i))

/-- uintParser mirrors the source: ParseUint at the bitSizeMap width,
returned unchanged for Uint64 and converted to the declared kind
otherwise. -/
def uintParser : Parser := fun t val _ _ =>
  match goParseUint val (bitSizeMap (kindOfTy t)) with
  | .error e => .error e
  | .ok i =>
    if kindOfTy t = .uint64 then .ok (.vint .uint64 i)
    else .ok (.vint (kindOfTy t) (convertToKind (kindOfTy t) i))

/-- floatParser delegates to the abstract strconv.ParseFloat collaborator
at the bitSizeMap width of the kind. -/
def floatParser (c : Collab) : Parser := fun t val _ _ =>
  c.parseFloat (kindOfTy t) val

/-- complexParser delegates to the abstract strconv.ParseComplex
collaborator at the bitSizeMap width of the kind. -/
def complexParser (c : Collab) : Parser := fun t val _ _ =>
  c.parseComplex (kindOfTy t) val

/-- jsonParser mirrors the source: unmarshal into a fresh value of the
declared type and return a pointer to it (the caller indirects). -/
def jsonParser (c : Collab) : Parser := fun t val _ _ =>
  match c.jsonUnmarshal t val with
  | .error e => .error e
  | .ok v => .ok (.vptrSome v)

/-- parsers mirrors the source's built-in kind-indexed parser map; kinds
absent from the map yield no parser. -/
def parsers (c : Collab) : Kind → Option Parser
  | .uint => some uintParser
  | .uint8 => some uintParser
  | .uint16 => some uintParser
  | .uint32 => some uintParser
  | .uint64 => some uintParser
  | .int => some intParser
  | .int8 => some intParser
  | .int16 => some intParser
  | .int32 => some intParser
  | .int64 => some intParser
  | .float32 => some (floatParser c)
  | .float64 => some (floatParser c)
  | .complex64 => some (complexParser c)
  | .complex128 => some (complexParser c)
  | .bool => some (fun _ val _ _ =>
      match goParseBool val with
      | .error e => .error e
      | .ok b => .ok (.vbool b))
  | .string => some (fun _ val _ _ => .ok (.vstr val))
  | .slice => some (jsonParser c)
  | .map => some (jsonParser c)
  | .struct => some (jsonParser c)
  | _ => none

/-- splitParams mirrors the parameter-splitting loop of the source's
`getEnv`: split the tag value on the separator; a token containing the
key/value separator becomes a keyword parameter via `kp[0]`/`kp[1]` of its
split, every other token is appended to the positional list. -/
def splitParams (prms : String) : List String × List (String × String) :=
  (goSplit prms separator).foldl
    (fun acc v =>
      if goContains v equal then
        (acc.1, mapSet acc.2 (kvSplit v).1 (kvSplit v).2)
      else (acc.1 ++ [v], acc.2))
    ([], [])

/-- getEnv mirrors the source's `getEnv`: look up the `env_var` tag; with
a non-empty tag value, resolve the environment variable (failing when it
is unset) and read the optional parser keyword and parameter tags; with a
present but empty tag value the lookup flag from Tag.Lookup survives, so
the field counts as resolved with the empty string as its value. -/
def getEnv (env : Env) (st : FieldDecl) :
    Option (String × String × List String × List (String × String)) :=
  match st.varTag with
  | none => none
  | some tv =>
    if tv = "" then some ("", "", [], [])
    else
      match env tv with
      | none => none
      | some ev =>
        let parserKw :=
          match st.parserTag with
          | some psr => if psr = "" then "" else psr
          | none => ""
        let pp :=
          match st.paramsTag with
          | some prms => if prms = "" then ([], []) else splitParams prms
          | none => ([], [])
        some (ev, parserKw, pp.1, pp.2)

/-- getParser mirrors the source's `getParser`: a non-empty keyword against
the caller keyword table, then the exact type against the caller type
table, then the kind against the caller kind table, then the kind against
the built-in `parsers` map; first match wins. -/
def getParser (c : Collab) (kwParsers : Option (String → Option Parser))
    (typeParsers : Option (GoType → Option Parser))
    (kindParsers : Option (Kind → Option Parser))
    (parserKw : String) (fType : GoType) : Option Parser :=
  match (if parserKw ≠ "" then
          match kwParsers with
          | some m => m parserKw
          | none => none
        else none) with
  | some p => some p
  | none =>
    match (match typeParsers with
           | some m => m fType
           | none => none) with
    | some p => some p
    | none =>
      match (match kindParsers with
             | some m => m (kindOfTy fType)
             | none => none) with
      | some p => some p
      | none => parsers c (kindOfTy fType)

/-- hasEnvVal mirrors the one-level lookahead loop of the source's
`loadEnv`: scan the immediate fields of a struct type for one whose
`getEnv` resolution succeeds. -/
def hasEnvVal (env : Env) : Fields → Bool
  | .fnil => false
  | .fcons g gs => if (getEnv env g).isSome then true else hasEnvVal env gs

mutual
/-- zeroValue mirrors reflect.New: the zero value of a type (integer kinds
are zero, strings empty, booleans false, pointers nil, structs zero
fieldwise; the abstractly modelled leaf kinds get the designated opaque
zero payload). -/
def zeroValue : GoType → Value
  | .prim k =>
    match k with
    | .string => .vstr ""
    | .bool => .vbool false
    | .int => .vint .int 0
    | .int8 => .vint .int8 0
    | .int16 => .vint .int16 0
    | .int32 => .vint .int32 0
    | .int64 => .vint .int64 0
    | .uint => .vint .uint 0
    | .uint8 => .vint .uint8 0
    | .uint16 => .vint .uint16 0
    | .uint32 => .vint .uint32 0
    | .uint64 => .vint .uint64 0
    | k' => .vraw k' ""
  | .strukt fs => .vstruct (zeroFields fs)
  | .ptr _ => .vptrNil

/-- zeroFields is the fieldwise zero value of a struct's field list. -/
def zeroFields : Fields → Values
  | .fnil => .vnil
  | .fcons (.mk _ _ _ _ t) fs => .vcons (zeroValue t) (zeroFields fs)
end

/-- indirect mirrors reflect.Indirect on a parser result: dereference a
non-nil pointer, return anything else unchanged. -/
def indirect : Value → Value
  | .vptrSome v => v
  | v => v

mutual
/-- loadEnv mirrors the field loop of the source's `loadEnv` over the
declared fields and the current field values of one struct; it returns the
error of the first failing field (or none) together with the resulting
field values, leaving the fields after a failure untouched. -/
def loadEnv (c : Collab) (kwP : Option (String → Option Parser))
    (tyP : Option (GoType → Option Parser))
    (kdP : Option (Kind → Option Parser)) (env : Env) :
    Fields → Values → Option GoErr × Values
  | .fnil, vs => (none, vs)
  | .fcons _ _, .vnil => (none, .vnil)
  | .fcons f fs, .vcons v vs =>
    match loadEnvField c kwP tyP kdP env f v with
    | (some e, v') => (some e, .vcons v' vs)
    | (none, v') =>
      match loadEnv c kwP tyP kdP env fs vs with
      | (r, vs') => (r, .vcons v' vs')

/-- loadEnvField is the body of the source's `loadEnv` loop for one field:
skip unexported fields; dereference a non-nil pointer; on a resolved
annotation allocate a nil pointer, look up a parser and apply it, writing
the indirected result (a parse error aborts, a missing parser silently
binds nothing); on an unresolved annotation run the one-level lookahead
for a nil struct pointer, then recurse when the working value is a
struct. -/
def loadEnvField (c : Collab) (kwP : Option (String → Option Parser))
    (tyP : Option (GoType → Option Parser))
    (kdP : Option (Kind → Option Parser)) (env : Env) :
    FieldDecl → Value → Option GoErr × Value
  | .mk vt pt qt ex t, v =>
    if ex = false then (none, v)
    else
      match getEnv env (.mk vt pt qt ex t) with
      | some (envVal, parserKw, params, kwParams) =>
        match v with
        | .vptrNil =>
          -- fieldType := fieldValue.Type().Elem(); allocation precedes
          -- the parser lookup
          let fieldType := ptrElem t
          match getParser c kwP tyP kdP parserKw fieldType with
          | some p =>
            match p fieldType envVal params kwParams with
            | .error e => (some e, .vptrSome (zeroValue fieldType))
            | .ok itf => (none, .vptrSome (indirect itf))
          | none => (none, .vptrSome (zeroValue fieldType))
        | .vptrSome ve =>
          let fieldType := ptrElem t
          match getParser c kwP tyP kdP parserKw fieldType with
          | some p =>
            match p fieldType envVal params kwParams with
            | .error e => (some e, .vptrSome ve)
            | .ok itf => (none, .vptrSome (indirect itf))
          | none => (none, .vptrSome ve)
        | _ =>
          match getParser c kwP tyP kdP parserKw t with
          | some p =>
            match p t envVal params kwParams with
            | .error e => (some e, v)
            | .ok itf => (none, indirect itf)
          | none => (none, v)
      | none =>
        match t, v with
        | .ptr (.strukt gs), .vptrNil =>
          if hasEnvVal env gs then
            match loadEnv c kwP tyP kdP env gs (zeroFields gs) with
            | (r, vs') => (r, .vptrSome (.vstruct vs'))
          else (none, v)
        | .ptr (.strukt gs), .vptrSome (.vstruct vs) =>
          match loadEnv c kwP tyP kdP env gs vs with
          | (r, vs') => (r, .vptrSome (.vstruct vs'))
        | .strukt gs, .vstruct vs =>
          match loadEnv c kwP tyP kdP env gs vs with
          | (r, vs') => (r, .vstruct vs')
        | _, _ => (none, v)
end

/-- Outcome models the result of the public entry points: a returned nil
error together with the final target value, a returned error together with
the partially mutated target value, or a panic carrying the message and
the untouched target value. -/
inductive Outcome where
  | outOk (v : Value)
  | outErr (e : GoErr) (v : Value)
  | panicked (msg : String) (v : Value)
deriving DecidableEq, Repr

/-- needMsg is the panic message format of the source:
`'%s' provided but '%s' required`. -/
def needMsg (got req : Kind) : String :=
  "'" ++ kindName got ++ "' provided but '" ++ kindName req ++ "' required"

/-- LoadEnvUserParser mirrors the source entry point: the argument (given
by its dynamic type and value) must be a pointer, and dereferencing it
must give a struct, else the call panics; a nil pointer dereferences to
the invalid-kind zero reflect.Value and panics on the struct check. -/
def LoadEnvUserParser (c : Collab) (env : Env)
    (kwP : Option (String → Option Parser))
    (tyP : Option (GoType → Option Parser))
    (kdP : Option (Kind → Option Parser)) (t : GoType) (v : Value) : Outcome :=
  match t with
  | .ptr te =>
    match v with
    | .vptrNil => .panicked (needMsg .invalid .struct) v
    | .vptrSome ve =>
      match te, ve with
      | .strukt fs, .vstruct vs =>
        match loadEnv c kwP tyP kdP env fs vs with
        | (none, vs') => .outOk (.vptrSome (.vstruct vs'))
        | (some e, vs') => .outErr e (.vptrSome (.vstruct vs'))
      | _, _ => .panicked (needMsg (kindOfTy te) .struct) v
    | _ => .panicked (needMsg (kindOfTy te) .struct) v
  | _ => .panicked (needMsg (kindOfTy t) .ptr) v

/-- LoadEnv mirrors the source wrapper: LoadEnvUserParser with no caller
parser tables. -/
def LoadEnv (c : Collab) (env : Env) (t : GoType) (v : Value) : Outcome :=
  LoadEnvUserParser c env none none none t v

/-! Spec-side definitions, written from the specification's words, to be
compared with the embedded source. -/

/-- specSatisfied follows the spec's glossary: a field's annotation is
satisfied iff the field declares a non-empty source-variable-name
annotation and the environment currently has a value bound to that
name. -/
def specSatisfied (env : Env) (f : FieldDecl) : Bool :=
  match f.varTag with
  | some tv => tv ≠ "" && (env tv).isSome
  | none => false

mutual
/-- specAnySat follows the claim's words: some field of the list, at any
depth of nesting (recursively), carries a satisfied annotation. -/
def specAnySat (env : Env) : Fields → Bool
  | .fnil => false
  | .fcons (.mk vt pt qt ex t) fs =>
    specSatisfied env (.mk vt pt qt ex t) || specAnySatTy env t ||
      specAnySat env fs

/-- specAnySatTy follows the claim's words on a type: some descendant
field of the type, at any depth, carries a satisfied annotation. -/
def specAnySatTy (env : Env) : GoType → Bool
  | .prim _ => false
  | .ptr t => specAnySatTy env t
  | .strukt fs => specAnySat env fs
end

/-- specResolve follows the spec's words for parser resolution: four
layers consulted with first-match-wins precedence — (1) a non-empty
keyword against the caller keyword table, (2) the exact declared type
against the caller type table, (3) the kind against the caller kind
table, (4) the kind against the built-in defaults. -/
def specResolve (c : Collab) (kwParsers : Option (String → Option Parser))
    (typeParsers : Option (GoType → Option Parser))
    (kindParsers : Option (Kind → Option Parser))
    (parserKw : String) (fType : GoType) : Option Parser :=
  (if parserKw ≠ "" then kwParsers.bind (fun m => m parserKw) else none) <|>
    typeParsers.bind (fun m => m fType) <|>
    kindParsers.bind (fun m => m (kindOfTy fType)) <|>
    parsers c (kindOfTy fType)

/-- specPositional follows the amended claim's words: the positional
parameters are exactly the tokens that contain no key/value separator,
in their original order. -/
def specPositional (prms : String) : List String :=
  (goSplit prms separator).filter (fun v => !goContains v equal)

/-- specKeywords follows the amended claim's words: every token containing
the key/value separator contributes a keyword binding whose key is the
text before the first separator and whose value is the text between the
first and second separator (anything after a second separator is
discarded); a later binding for the same key overwrites an earlier
one. -/
def specKeywords (prms : String) : List (String × String) :=
  ((goSplit prms separator).filter (fun v => goContains v equal)).foldl
    (fun m v => mapSet m (kvSplit v).1 (kvSplit v).2) []

/-- cEmpty is a concrete collaborator bundle whose abstract capabilities
all fail; used to instantiate witnesses whose claims do not involve the
abstract collaborators. -/
def cEmpty : Collab :=
  ⟨fun _ _ => .error (.errCustom "json"),
   fun _ _ => .error (.errCustom "float"),
   fun _ _ => .error (.errCustom "complex")⟩

/-! Claim C1. -/

/-- envC1 binds the variable `V` to the out-of-range literal `99999`. -/
def envC1 : Env := fun n => if n = "V" then some "99999" else none

/-- tyC1 is a pointer to a struct with one exported `int8` field tagged
`env_var:"V"`. -/
def tyC1 : GoType :=
  .ptr (.strukt (.fcons (.mk (some "V") none none true (.prim .int8)) .fnil))

/-- tyC1w is the same struct shape with an `int16` field instead. -/
def tyC1w : GoType :=
  .ptr (.strukt (.fcons (.mk (some "V") none none true (.prim .int16)) .fnil))

/-- C1: binding the string "99999" into a signed 8-bit field does NOT
return an error: because `bitSizeMap` has no entry for the 8-bit kinds,
the Go zero value 0 selects the native 64-bit parse width, the parse
succeeds, and the reflect conversion silently wraps 99999 to the int8
value -97; the same input in an `int16` field is rejected with a range
error, exhibiting the intended narrow-width behavior the 8-bit path
misses. This evaluates the code at the failing input of the claim. -/
theorem c1_int8_overflow_wraps_silently :
    LoadEnv cEmpty envC1 tyC1 (.vptrSome (.vstruct (.vcons (.vint .int8 0) .vnil)))
        = .outOk (.vptrSome (.vstruct (.vcons (.vint .int8 (-97)) .vnil))) ∧
    LoadEnv cEmpty envC1 tyC1w (.vptrSome (.vstruct (.vcons (.vint .int16 0) .vnil)))
        = .outErr (.errRange "99999")
            (.vptrSome (.vstruct (.vcons (.vint .int16 0) .vnil))) :=
  ⟨rfl, rfl⟩

/-! Claim C2. -/

/-- innerC2 is a record whose only field is satisfied under envC2. -/
def innerC2 : GoType :=
  .strukt (.fcons (.mk (some "X") none none true (.prim .string)) .fnil)

/-- outerC2 is a record whose only field is an untagged by-value record of
type innerC2: its only satisfied annotation sits at depth two. -/
def outerC2 : GoType :=
  .strukt (.fcons (.mk none none none true innerC2) .fnil)

/-- envC2 binds the depth-two variable `X`. -/
def envC2 : Env := fun n => if n = "X" then some "hi" else none

/-- C2 counterexample: a nil pointer to outerC2 has a satisfied descendant
annotation at depth two (the recursive descendant scan of the claim is
true), yet the Field Walker leaves the pointer nil, because the source's
lookahead scan inspects only the immediate fields of the pointed-to
record. -/
theorem c2_counterexample :
    specAnySatTy envC2 outerC2 = true ∧
    loadEnvField cEmpty none none none envC2
        (.mk none none none true (.ptr outerC2)) .vptrNil = (none, .vptrNil) :=
  ⟨rfl, rfl⟩

/-- C2 (amended): for a nil struct pointer field with no resolved
annotation of its own, the pointer is allocated if and only if the
one-level scan of the pointed-to record's immediate fields finds a field
whose annotation lookup succeeds; satisfied annotations nested deeper than
one level do not trigger allocation. -/
theorem c2_alloc_iff_one_level_scan (c : Collab)
    (kwP : Option (String → Option Parser)) (tyP : Option (GoType → Option Parser))
    (kdP : Option (Kind → Option Parser)) (env : Env)
    (vt pt qt : Option String) (gs : Fields)
    (h : getEnv env (.mk vt pt qt true (.ptr (.strukt gs))) = none) :
    ((loadEnvField c kwP tyP kdP env (.mk vt pt qt true (.ptr (.strukt gs)))
        .vptrNil).2 = .vptrNil ↔ hasEnvVal env gs = false) ∧
    (hasEnvVal env gs = true →
      ∃ vs', (loadEnvField c kwP tyP kdP env (.mk vt pt qt true (.ptr (.strukt gs)))
          .vptrNil).2 = .vptrSome (.vstruct vs')) := by
  rw [loadEnvField]
  simp only [FieldDecl.exported, h]
  cases hscan : hasEnvVal env gs with
  | false =>
    simp [hscan]
  | true =>
    cases hl : loadEnv c kwP tyP kdP env gs (zeroFields gs) with
    | mk r vs' =>
      simp [hscan, hl]

/-- C2 witness: instantiating the amended theorem at a concrete record
whose immediate field is satisfied, so the nil pointer is allocated. -/
theorem c2_witness :
    ∃ vs', (loadEnvField cEmpty none none none envC2
        (.mk none none none true (.ptr innerC2)) .vptrNil).2
      = .vptrSome (.vstruct vs') :=
  (c2_alloc_iff_one_level_scan cEmpty none none none envC2 none none none
    (.fcons (.mk (some "X") none none true (.prim .string)) .fnil) rfl).2 rfl

/-! Claim C3. -/

/-- fieldC3 is a by-value record field that carries its own
environment-variable annotation, naming a variable that is not set. -/
def fieldC3 : FieldDecl := .mk (some "UNSET") none none true innerC2

/-- C3 counterexample: fieldC3 carries an environment-variable annotation
of its own, yet the Field Walker recurses into the nested record and binds
its inner field from the inner field's own annotation, because the
annotated variable is unset; the claim's "recurses if and only if the
field itself carries no annotation" is false on the code. -/
theorem c3_counterexample :
    fieldC3.varTag = some "UNSET" ∧
    loadEnvField cEmpty none none none envC2 fieldC3
        (.vstruct (.vcons (.vstr "default") .vnil))
      = (none, .vstruct (.vcons (.vstr "hi") .vnil)) :=
  ⟨rfl, rfl⟩

/-- C3 (amended): the Field Walker recurses into a by-value nested record
if and only if the field's annotation lookup fails (no variable-name
annotation, or a non-empty name whose variable is currently unset); when
the lookup succeeds the record is bound wholesale from the one resolved
value: the outcome depends only on that resolution, so the environment
bindings of the inner fields' own annotations are never consulted. -/
theorem c3_recursion_iff_unresolved (c : Collab)
    (kwP : Option (String → Option Parser)) (tyP : Option (GoType → Option Parser))
    (kdP : Option (Kind → Option Parser)) (env env2 : Env)
    (vt pt qt : Option String) (gs : Fields) (vs : Values) :
    (getEnv env (.mk vt pt qt true (.strukt gs)) = none →
      loadEnvField c kwP tyP kdP env (.mk vt pt qt true (.strukt gs)) (.vstruct vs)
        = ((loadEnv c kwP tyP kdP env gs vs).1,
           .vstruct (loadEnv c kwP tyP kdP env gs vs).2)) ∧
    (∀ x, getEnv env (.mk vt pt qt true (.strukt gs)) = some x →
      getEnv env2 (.mk vt pt qt true (.strukt gs)) = some x →
      loadEnvField c kwP tyP kdP env (.mk vt pt qt true (.strukt gs)) (.vstruct vs)
        = loadEnvField c kwP tyP kdP env2 (.mk vt pt qt true (.strukt gs))
            (.vstruct vs)) := by
  constructor
  · intro h
    rw [loadEnvField]
    simp only [FieldDecl.exported, h]
    cases hl : loadEnv c kwP tyP kdP env gs vs with
    | mk r vs' => simp [hl]
  · intro x h1 h2
    obtain ⟨ev, kw, ps, kws⟩ := x
    rw [loadEnvField, loadEnvField]
    simp only [FieldDecl.exported, h1, h2]

/-- C3 witness: instantiating the amended theorem at a concrete nested
record whose own annotated variable is unset, discharging the
unresolved-annotation hypothesis, so the walker recurses. -/
theorem c3_witness :
    loadEnvField cEmpty none none none envC2
        (.mk (some "UNSET") none none true
          (.strukt (.fcons (.mk (some "X") none none true (.prim .string)) .fnil)))
        (.vstruct (.vcons (.vstr "default") .vnil))
      = ((loadEnv cEmpty none none none envC2
            (.fcons (.mk (some "X") none none true (.prim .string)) .fnil)
            (.vcons (.vstr "default") .vnil)).1,
         .vstruct (loadEnv cEmpty none none none envC2
            (.fcons (.mk (some "X") none none true (.prim .string)) .fnil)
            (.vcons (.vstr "default") .vnil)).2) :=
  (c3_recursion_iff_unresolved cEmpty none none none envC2 envC2 (some "UNSET")
      none none (.fcons (.mk (some "X") none none true (.prim .string)) .fnil)
      (.vcons (.vstr "default") .vnil)).1 rfl

/-! Claim C4. -/

/-- C4: parser resolution follows the four-layer first-match-wins
precedence of the spec — the embedded `getParser` coincides with the
spec-side `specResolve` on all inputs — and, in particular, when the
caller keyword table matches a satisfied field's non-empty keyword, the
keyword override's result is the value written into the field. -/
theorem c4_parser_precedence :
    (∀ (c : Collab) (kwP : Option (String → Option Parser))
       (tyP : Option (GoType → Option Parser)) (kdP : Option (Kind → Option Parser))
       (kw : String) (t : GoType),
       getParser c kwP tyP kdP kw t = specResolve c kwP tyP kdP kw t) ∧
    (∀ (c : Collab) (m : String → Option Parser)
       (tyP : Option (GoType → Option Parser)) (kdP : Option (Kind → Option Parser))
       (env : Env) (vt pt qt : Option String) (t : GoType) (v : Value)
       (ev kw : String) (ps : List String) (kws : List (String × String))
       (p : Parser) (out : Value),
       getEnv env (.mk vt pt qt true t) = some (ev, kw, ps, kws) →
       kw ≠ "" → m kw = some p →
       v ≠ .vptrNil → (∀ w, v ≠ .vptrSome w) → (∀ vs, v ≠ .vstruct vs) →
       p t ev ps kws = .ok out →
       loadEnvField c (some m) tyP kdP env (.mk vt pt qt true t) v
         = (none, indirect out)) := by
  constructor
  · intro c kwP tyP kdP kw t
    unfold getParser specResolve
    by_cases hkw : kw = "" <;>
      cases kwP <;> cases tyP <;> cases kdP <;>
        simp only [hkw, ne_eq, not_true_eq_false, not_false_eq_true, if_true,
          if_false, ite_true, ite_false, Option.bind_none, Option.bind_some,
          Option.none_orElse, Option.orElse_none, Option.some_orElse] <;>
        (repeat' split) <;> simp_all [Option.orElse]
  · intro c m tyP kdP env vt pt qt t v ev kw ps kws p out hE hkw hm hv1 hv2 hv3 hp
    have hg : getParser c (some m) tyP kdP kw t = some p := by
      unfold getParser
      simp [hkw, hm]
    cases v
    case vptrNil => exact absurd rfl hv1
    case vptrSome w => exact absurd rfl (hv2 w)
    case vstruct vs => exact absurd rfl (hv3 vs)
    all_goals rw [loadEnvField]
    all_goals try rw [hE]
    all_goals intros
    all_goals simp_all [FieldDecl.exported, FieldDecl.ty, hg, hp]

/-- pC4 is a caller-registered override parser returning a fixed value. -/
def pC4 : Parser := fun _ _ _ _ => .ok (.vstr "override")

/-- mC4 is a caller keyword table binding the keyword `psr` to pC4. -/
def mC4 : String → Option Parser := fun k => if k = "psr" then some pC4 else none

/-- envC4 binds the variable `V` to `raw`. -/
def envC4 : Env := fun n => if n = "V" then some "raw" else none

/-- C4 witness: a string field annotated with the keyword `psr` and a set
variable; both the keyword override and the built-in string coercion
apply, and the override's result is the one written. -/
theorem c4_witness :
    loadEnvField cEmpty (some mC4) none none envC4
        (.mk (some "V") (some "psr") none true (.prim .string)) (.vstr "default")
      = (none, .vstr "override") :=
  c4_parser_precedence.2 cEmpty mC4 none none envC4 (some "V") (some "psr") none
    (.prim .string) (.vstr "default") "raw" "psr" [] [] pC4 (.vstr "override")
    rfl (by decide) rfl (by decide) (fun w h => Value.noConfusion h)
    (fun vs h => Value.noConfusion h) rfl

/-! Claim C5. -/

/-- C5 counterexample: in the parameter token `k=v1=v2`, the source's
`kp[0]`/`kp[1]` indexing after splitting on every `=` makes the keyword
value the second segment `v1`, not the remainder `v1=v2` that a
first-occurrence split would give. -/
theorem c5_counterexample :
    getEnv (fun n => if n = "V" then some "ev" else none)
        (.mk (some "V") none (some "k=v1=v2") true (.prim .string))
      = some ("ev", "", [], [("k", "v1")]) ∧ ("v1" : String) ≠ "v1=v2" :=
  ⟨rfl, by decide⟩

/-- splitParamsIsFiltered relates the source's single fold over all tokens
to the spec-side characterization: positional parameters are the tokens
without the key/value separator in order, keyword parameters are the
kvSplit results of the remaining tokens folded left into the map. -/
theorem splitParamsIsFiltered (ts : List String) : ∀ (ps : List String)
    (ks : List (String × String)),
    ts.foldl
      (fun acc v =>
        if goContains v equal then
          (acc.1, mapSet acc.2 (kvSplit v).1 (kvSplit v).2)
        else (acc.1 ++ [v], acc.2))
      (ps, ks)
    = (ps ++ ts.filter (fun v => !goContains v equal),
       (ts.filter (fun v => goContains v equal)).foldl
         (fun m v => mapSet m (kvSplit v).1 (kvSplit v).2) ks) := by
  induction ts with
  | nil => simp
  | cons t ts ih =>
    intro ps ks
    by_cases h : goContains t equal = true
    · simp [h, ih]
    · simp only [Bool.not_eq_true] at h
      simp [h, ih]

/-- C5 (amended): the parameter-list annotation is split on `;` into
tokens; tokens without `=` become the positional parameters in their
original order; every token containing `=` becomes a keyword parameter
whose key is the text before the first `=` and whose value is the text
between the first and second `=` (text after a second `=` is discarded),
later bindings for the same key overwriting earlier ones. -/
theorem c5_param_split (env : Env) (nm prms : String) (ty : GoType) (ev : String)
    (hnm : nm ≠ "") (hev : env nm = some ev) (hprms : prms ≠ "") :
    getEnv env (.mk (some nm) none (some prms) true ty)
      = some (ev, "", specPositional prms, specKeywords prms) := by
  unfold getEnv specPositional specKeywords
  simp only [FieldDecl.varTag, FieldDecl.parserTag, FieldDecl.paramsTag,
    hnm, hev, hprms, if_false, ite_false]
  rw [splitParams, splitParamsIsFiltered]
  simp

/-- C5 witness: instantiating the amended theorem on a concrete parameter
list mixing positional and keyword tokens. -/
theorem c5_witness :
    getEnv (fun n => if n = "V" then some "ev" else none)
        (.mk (some "V") none (some "a;k=x;b;k=y=z") true (.prim .string))
      = some ("ev", "", specPositional "a;k=x;b;k=y=z",
          specKeywords "a;k=x;b;k=y=z") :=
  c5_param_split (fun n => if n = "V" then some "ev" else none) "V"
    "a;k=x;b;k=y=z" (.prim .string) "ev" (by decide) rfl (by decide)

/-! Claim C6. -/

/-- C6: when the traversal of a struct's fields returns an error, there is
a failing position j in traversal order such that the returned error is
the error of field j, every field before j was processed successfully and
holds its newly assigned value, and every field after j is exactly as it
was before the call. -/
theorem c6_first_error_aborts (c : Collab)
    (kwP : Option (String → Option Parser)) (tyP : Option (GoType → Option Parser))
    (kdP : Option (Kind → Option Parser)) (env : Env) :
    ∀ (fs : Fields) (vs : Values) (e : GoErr) (vs' : Values),
      loadEnv c kwP tyP kdP env fs vs = (some e, vs') →
      ∃ j, j < fs.len ∧ j < vs.len ∧ vs'.len = vs.len ∧
        (∀ i, i < j →
          loadEnvField c kwP tyP kdP env (fs.getD i) (vs.getD i)
            = (none, vs'.getD i)) ∧
        loadEnvField c kwP tyP kdP env (fs.getD j) (vs.getD j)
          = (some e, vs'.getD j) ∧
        (∀ i, j < i → vs'.getD i = vs.getD i) := by
  suffices H : ∀ (n : Nat) (fs : Fields), fs.len ≤ n →
      ∀ (vs : Values) (e : GoErr) (vs' : Values),
        loadEnv c kwP tyP kdP env fs vs = (some e, vs') →
        ∃ j, j < fs.len ∧ j < vs.len ∧ vs'.len = vs.len ∧
          (∀ i, i < j →
            loadEnvField c kwP tyP kdP env (fs.getD i) (vs.getD i)
              = (none, vs'.getD i)) ∧
          loadEnvField c kwP tyP kdP env (fs.getD j) (vs.getD j)
            = (some e, vs'.getD j) ∧
          (∀ i, j < i → vs'.getD i = vs.getD i) by
    intro fs vs e vs' h
    exact H fs.len fs (Nat.le_refl _) vs e vs' h
  intro n
  induction n with
  | zero =>
    intro fs hle vs e vs' h
    cases fs with
    | fnil =>
      rw [loadEnv] at h
      exact absurd h (by simp)
    | fcons f fs => simp [Fields.len] at hle
  | succ n ih0 =>
    intro fs hle vs e vs' h
    cases fs with
    | fnil =>
      rw [loadEnv] at h
      exact absurd h (by simp)
    | fcons f fs =>
      have ih := ih0 fs (by
        simp only [Fields.len] at hle
        omega)
      cases vs with
        | vnil =>
          rw [loadEnv] at h
          exact absurd h (by simp)
        | vcons v vs =>
          rw [loadEnv] at h
          cases hf : loadEnvField c kwP tyP kdP env f v with
          | mk r v1 =>
            rw [hf] at h
            cases r with
            | some e0 =>
              simp only [Prod.mk.injEq, Option.some.injEq] at h
              obtain ⟨h1, h2⟩ := h
              subst h2
              subst h1
              refine ⟨0, by simp [Fields.len], by simp [Values.len],
                by simp [Values.len], ?_, hf, ?_⟩
              · intro i hi
                exact absurd hi (Nat.not_lt_zero i)
              · intro i hi
                cases i with
                | zero => exact absurd hi (by simp)
                | succ i' => rfl
            | none =>
              cases hrest : loadEnv c kwP tyP kdP env fs vs with
              | mk r2 vs2 =>
                rw [hrest] at h
                simp only [Prod.mk.injEq] at h
                obtain ⟨h1, h2⟩ := h
                subst h1
                subst h2
                obtain ⟨j, hj1, hj2, hj3, hpre, hat, hpost⟩ := ih vs e vs2 hrest
                refine ⟨j + 1, ?_, ?_, ?_, ?_, ?_, ?_⟩
                · simpa [Fields.len] using Nat.succ_lt_succ hj1
                · simpa [Values.len] using Nat.succ_lt_succ hj2
                · simp [Values.len, hj3]
                · intro i hi
                  cases i with
                  | zero => exact hf
                  | succ i' => exact hpre i' (Nat.lt_of_succ_lt_succ hi)
                · exact hat
                · intro i hi
                  cases i with
                  | zero => exact absurd hi (by simp)
                  | succ i' => exact hpost i' (Nat.lt_of_succ_lt_succ hi)

/-- structC6 is a three-field record: a string field bound from `A`, an
int16 field bound from the out-of-range `B`, and a string field bound from
`CC`; all three variables are set. -/
def structC6 : Fields :=
  .fcons (.mk (some "A") none none true (.prim .string))
    (.fcons (.mk (some "B") none none true (.prim .int16))
      (.fcons (.mk (some "CC") none none true (.prim .string)) .fnil))

/-- envC6 sets all three variables, the middle one out of range for
int16. -/
def envC6 : Env :=
  fun n => if n = "A" then some "hello"
    else if n = "B" then some "99999"
    else if n = "CC" then some "late" else none

/-- C6 witness: on the concrete record, the first field keeps its newly
bound value, the second fails with the range error that the call returns,
and the third — though its variable is set — is exactly its pre-call
value. -/
theorem c6_witness :
    ∃ j, j < structC6.len ∧
      j < (Values.vcons (.vstr "d1")
            (.vcons (.vint .int16 0) (.vcons (.vstr "d3") .vnil))).len ∧
      (loadEnv cEmpty none none none envC6 structC6
          (.vcons (.vstr "d1") (.vcons (.vint .int16 0)
            (.vcons (.vstr "d3") .vnil)))).2.len
        = (Values.vcons (.vstr "d1")
            (.vcons (.vint .int16 0) (.vcons (.vstr "d3") .vnil))).len ∧
      (∀ i, i < j →
        loadEnvField cEmpty none none none envC6 (structC6.getD i)
            ((Values.vcons (.vstr "d1") (.vcons (.vint .int16 0)
              (.vcons (.vstr "d3") .vnil))).getD i)
          = (none, (loadEnv cEmpty none none none envC6 structC6
              (.vcons (.vstr "d1") (.vcons (.vint .int16 0)
                (.vcons (.vstr "d3") .vnil)))).2.getD i)) ∧
      loadEnvField cEmpty none none none envC6 (structC6.getD j)
          ((Values.vcons (.vstr "d1") (.vcons (.vint .int16 0)
            (.vcons (.vstr "d3") .vnil))).getD j)
        = (some (.errRange "99999"),
           (loadEnv cEmpty none none none envC6 structC6
              (.vcons (.vstr "d1") (.vcons (.vint .int16 0)
                (.vcons (.vstr "d3") .vnil)))).2.getD j) ∧
      (∀ i, j < i →
        (loadEnv cEmpty none none none envC6 structC6
            (.vcons (.vstr "d1") (.vcons (.vint .int16 0)
              (.vcons (.vstr "d3") .vnil)))).2.getD i
          = (Values.vcons (.vstr "d1") (.vcons (.vint .int16 0)
              (.vcons (.vstr "d3") .vnil))).getD i) :=
  c6_first_error_aborts cEmpty none none none envC6 structC6
    (.vcons (.vstr "d1") (.vcons (.vint .int16 0) (.vcons (.vstr "d3") .vnil)))
    (.errRange "99999")
    (loadEnv cEmpty none none none envC6 structC6
      (.vcons (.vstr "d1") (.vcons (.vint .int16 0)
        (.vcons (.vstr "d3") .vnil)))).2 rfl

/-! Claim C7. -/

/-- C7 counterexample: a string field whose `env_var` tag is present but
empty has no satisfied annotation in the spec's sense (the environment
here is entirely empty), and its working type is a plain string, yet Bind
overwrites its default with the empty string: the `ok` flag of
`Tag.Lookup` survives the guard `ok && val != ""`, so the field is bound
from the empty value. -/
theorem c7_counterexample :
    specSatisfied (fun _ => none)
        (.mk (some "") none none true (.prim .string)) = false ∧
    loadEnvField cEmpty none none none (fun _ => none)
        (.mk (some "") none none true (.prim .string)) (.vstr "hello")
      = (none, .vstr "") ∧
    (Value.vstr "" ≠ .vstr "hello") :=
  ⟨rfl, rfl, by decide⟩

/-- C7 (amended): a field whose annotation lookup fails — no variable-name
annotation at all, or a non-empty name whose variable is unset — and whose
working type is neither a struct nor a pointer to a struct is left exactly
unchanged by the traversal; a present-but-empty variable-name annotation,
however, counts as a successful lookup with the empty value and can
overwrite the field. -/
theorem c7_unannotated_left_untouched (c : Collab)
    (kwP : Option (String → Option Parser)) (tyP : Option (GoType → Option Parser))
    (kdP : Option (Kind → Option Parser)) (env : Env) (f : FieldDecl) (v : Value)
    (h : getEnv env f = none)
    (h1 : ∀ gs, f.ty ≠ .strukt gs)
    (h2 : ∀ gs, f.ty ≠ .ptr (.strukt gs)) :
    loadEnvField c kwP tyP kdP env f v = (none, v) := by
  obtain ⟨vt, pt, qt, ex, t⟩ := f
  simp only [FieldDecl.ty] at h1 h2
  rw [loadEnvField]
  all_goals try
    (intros
     rename_i hty hv
     first
       | exact h1 _ hty
       | exact h2 _ hty)
  cases ex with
  | false => simp [FieldDecl.exported]
  | true =>
    simp only [FieldDecl.exported, h]
    cases v with
    | vptrNil =>
      cases t with
      | prim k => rfl
      | strukt gs => exact absurd rfl (h1 gs)
      | ptr te =>
        cases te with
        | prim k => rfl
        | strukt gs => exact absurd rfl (h2 gs)
        | ptr te2 => rfl
    | vptrSome ve =>
      cases t with
      | prim k => cases ve <;> rfl
      | strukt gs => exact absurd rfl (h1 gs)
      | ptr te =>
        cases te with
        | prim k => cases ve <;> rfl
        | strukt gs => exact absurd rfl (h2 gs)
        | ptr te2 => cases ve <;> rfl
    | vstruct vs =>
      cases t with
      | prim k => rfl
      | strukt gs => exact absurd rfl (h1 gs)
      | ptr te => cases te <;> rfl
    | vint k n => rfl
    | vstr s => rfl
    | vbool b => rfl
    | vraw k s => rfl

/-- C7 witness: a tagless boolean field with an unrelated variable set
keeps its pre-call value. -/
theorem c7_witness :
    loadEnvField cEmpty none none none envC2
        (.mk none none none true (.prim .bool)) (.vbool true)
      = (none, .vbool true) :=
  c7_unannotated_left_untouched cEmpty none none none envC2
    (.mk none none none true (.prim .bool)) (.vbool true) rfl
    (fun _ h => GoType.noConfusion h) (fun _ h => GoType.noConfusion h)

/-! Helper equations for the resolved-annotation branches of
loadEnvField, shared by the theorems below. -/

/-- loadEnvField_resolved_nil: on a resolved annotation, a nil pointer
field is allocated and then bound through the parser lookup on the
pointee type. -/
theorem loadEnvField_resolved_nil (c : Collab)
    (kwP : Option (String → Option Parser)) (tyP : Option (GoType → Option Parser))
    (kdP : Option (Kind → Option Parser)) (env : Env)
    (vt pt qt : Option String) (t : GoType) (ev kw : String)
    (ps : List String) (kws : List (String × String))
    (hE : getEnv env (.mk vt pt qt true t) = some (ev, kw, ps, kws)) :
    loadEnvField c kwP tyP kdP env (.mk vt pt qt true t) .vptrNil
      = (match getParser c kwP tyP kdP kw (ptrElem t) with
         | some p =>
           match p (ptrElem t) ev ps kws with
           | .error e => (some e, .vptrSome (zeroValue (ptrElem t)))
           | .ok itf => (none, .vptrSome (indirect itf))
         | none => (none, .vptrSome (zeroValue (ptrElem t)))) := by
  cases t with
  | prim k =>
    rw [loadEnvField, hE] <;>
      first
        | rfl
        | (intros; simp_all)
  | strukt gs =>
    rw [loadEnvField, hE] <;>
      first
        | rfl
        | (intros; simp_all)
  | ptr te =>
    cases te <;>
      (rw [loadEnvField, hE] <;>
        first
          | rfl
          | (intros; simp_all))

/-- loadEnvField_resolved_deref: on a resolved annotation, a non-nil
pointer field is dereferenced and bound through the parser lookup on the
pointee type. -/
theorem loadEnvField_resolved_deref (c : Collab)
    (kwP : Option (String → Option Parser)) (tyP : Option (GoType → Option Parser))
    (kdP : Option (Kind → Option Parser)) (env : Env)
    (vt pt qt : Option String) (t : GoType) (ve : Value) (ev kw : String)
    (ps : List String) (kws : List (String × String))
    (hE : getEnv env (.mk vt pt qt true t) = some (ev, kw, ps, kws)) :
    loadEnvField c kwP tyP kdP env (.mk vt pt qt true t) (.vptrSome ve)
      = (match getParser c kwP tyP kdP kw (ptrElem t) with
         | some p =>
           match p (ptrElem t) ev ps kws with
           | .error e => (some e, .vptrSome ve)
           | .ok itf => (none, .vptrSome (indirect itf))
         | none => (none, .vptrSome ve)) := by
  cases t with
  | prim k =>
    cases ve <;>
      (rw [loadEnvField, hE] <;>
        first
          | rfl
          | (intros; simp_all))
  | strukt gs =>
    cases ve <;>
      (rw [loadEnvField, hE] <;>
        first
          | rfl
          | (intros; simp_all))
  | ptr te =>
    cases te <;> cases ve <;>
      (rw [loadEnvField, hE] <;>
        first
          | rfl
          | (intros; simp_all))

/-- loadEnvField_resolved_plain: on a resolved annotation, a
non-pointer non-struct field value is bound through the parser lookup on
the declared type. -/
theorem loadEnvField_resolved_plain (c : Collab)
    (kwP : Option (String → Option Parser)) (tyP : Option (GoType → Option Parser))
    (kdP : Option (Kind → Option Parser)) (env : Env)
    (vt pt qt : Option String) (t : GoType) (v : Value) (ev kw : String)
    (ps : List String) (kws : List (String × String))
    (hE : getEnv env (.mk vt pt qt true t) = some (ev, kw, ps, kws))
    (hv1 : v ≠ .vptrNil) (hv2 : ∀ w, v ≠ .vptrSome w)
    (hv3 : ∀ vs, v ≠ .vstruct vs) :
    loadEnvField c kwP tyP kdP env (.mk vt pt qt true t) v
      = (match getParser c kwP tyP kdP kw t with
         | some p =>
           match p t ev ps kws with
           | .error e => (some e, v)
           | .ok itf => (none, indirect itf)
         | none => (none, v)) := by
  cases v
  case vptrNil => exact absurd rfl hv1
  case vptrSome w => exact absurd rfl (hv2 w)
  case vstruct vs => exact absurd rfl (hv3 vs)
  all_goals
    rw [loadEnvField, hE] <;>
      first
        | rfl
        | (intros; simp_all)

/-! Claim C8. -/

/-- C8: a resolved field whose type matches no layer of the parser
registry does not make Bind fail: the per-field step returns no error, a
non-pointer field is left exactly as it was, and a nil pointer field ends
up allocated to the zero value (nothing is bound from the environment in
either case). -/
theorem c8_unsupported_kind_skipped (c : Collab)
    (kwP : Option (String → Option Parser)) (tyP : Option (GoType → Option Parser))
    (kdP : Option (Kind → Option Parser)) (env : Env)
    (vt pt qt : Option String) (t : GoType) (v : Value) (ev kw : String)
    (ps : List String) (kws : List (String × String))
    (hE : getEnv env (.mk vt pt qt true t) = some (ev, kw, ps, kws))
    (hP : getParser c kwP tyP kdP kw (ptrElem t) = none)
    (hShape : (∃ te, t = .ptr te) → v = .vptrNil ∨ ∃ w, v = .vptrSome w)
    (hvs : ∀ vs, v ≠ .vstruct vs) :
    loadEnvField c kwP tyP kdP env (.mk vt pt qt true t) v
      = (none, if v = .vptrNil then .vptrSome (zeroValue (ptrElem t)) else v) := by
  cases v with
  | vptrNil =>
    rw [loadEnvField_resolved_nil c kwP tyP kdP env vt pt qt t ev kw ps kws hE, hP]
    simp
  | vptrSome w =>
    rw [loadEnvField_resolved_deref c kwP tyP kdP env vt pt qt t w ev kw ps kws hE,
      hP]
    simp
  | vstruct vs => exact absurd rfl (hvs vs)
  | vint k n =>
    have ht : ptrElem t = t := by
      cases t with
      | prim k2 => rfl
      | strukt gs => rfl
      | ptr te =>
        rcases hShape ⟨te, rfl⟩ with h | ⟨w, h⟩ <;> exact absurd h (by simp)
    rw [loadEnvField_resolved_plain c kwP tyP kdP env vt pt qt t _ ev kw ps kws hE
      (by simp) (by simp) (by simp), ← ht, hP]
    simp
  | vstr s =>
    have ht : ptrElem t = t := by
      cases t with
      | prim k2 => rfl
      | strukt gs => rfl
      | ptr te =>
        rcases hShape ⟨te, rfl⟩ with h | ⟨w, h⟩ <;> exact absurd h (by simp)
    rw [loadEnvField_resolved_plain c kwP tyP kdP env vt pt qt t _ ev kw ps kws hE
      (by simp) (by simp) (by simp), ← ht, hP]
    simp
  | vbool b =>
    have ht : ptrElem t = t := by
      cases t with
      | prim k2 => rfl
      | strukt gs => rfl
      | ptr te =>
        rcases hShape ⟨te, rfl⟩ with h | ⟨w, h⟩ <;> exact absurd h (by simp)
    rw [loadEnvField_resolved_plain c kwP tyP kdP env vt pt qt t _ ev kw ps kws hE
      (by simp) (by simp) (by simp), ← ht, hP]
    simp
  | vraw k s =>
    have ht : ptrElem t = t := by
      cases t with
      | prim k2 => rfl
      | strukt gs => rfl
      | ptr te =>
        rcases hShape ⟨te, rfl⟩ with h | ⟨w, h⟩ <;> exact absurd h (by simp)
    rw [loadEnvField_resolved_plain c kwP tyP kdP env vt pt qt t _ ev kw ps kws hE
      (by simp) (by simp) (by simp), ← ht, hP]
    simp

/-- C8 witness: a resolved channel-kind field (no built-in coercion, no
caller tables) is skipped without error and left unchanged. -/
theorem c8_witness :
    loadEnvField cEmpty none none none envC1
        (.mk (some "V") none none true (.prim .chan)) (.vraw .chan "keep")
      = (none, if Value.vraw .chan "keep" = .vptrNil
          then .vptrSome (zeroValue (ptrElem (.prim .chan)))
          else .vraw .chan "keep") :=
  c8_unsupported_kind_skipped cEmpty none none none envC1 (some "V") none none
    (.prim .chan) (.vraw .chan "keep") "99999" "" [] [] rfl rfl
    (by rintro ⟨te, h⟩; exact GoType.noConfusion h)
    (fun vs h => Value.noConfusion h)

/-! Claim C9. -/

/-- C9: passing a non-pointer target, or a pointer whose pointee is not a
struct, makes the entry point panic with the source's message, with the
target value untouched (carried unchanged in the panic outcome). -/
theorem c9_invalid_target_panics (c : Collab)
    (kwP : Option (String → Option Parser)) (tyP : Option (GoType → Option Parser))
    (kdP : Option (Kind → Option Parser)) (env : Env) :
    (∀ (t : GoType) (v : Value), (∀ te, t ≠ .ptr te) →
      LoadEnvUserParser c env kwP tyP kdP t v
        = .panicked (needMsg (kindOfTy t) .ptr) v) ∧
    (∀ (te : GoType) (ve : Value), kindOfTy te ≠ .struct →
      LoadEnvUserParser c env kwP tyP kdP (.ptr te) (.vptrSome ve)
        = .panicked (needMsg (kindOfTy te) .struct) (.vptrSome ve)) := by
  constructor
  · intro t v hnp
    cases t with
    | prim k => rfl
    | strukt gs => rfl
    | ptr te => exact absurd rfl (hnp te)
  · intro te ve hns
    cases te with
    | prim k => cases ve <;> rfl
    | strukt gs => exact absurd rfl hns
    | ptr te2 => cases ve <;> rfl

/-- C9 witness: a plain int target panics demanding a pointer, and a
pointer-to-string target panics demanding a struct; the values are
untouched. -/
theorem c9_witness :
    LoadEnvUserParser cEmpty envC2 none none none (.prim .int) (.vint .int 5)
      = .panicked (needMsg (kindOfTy (.prim .int)) .ptr) (.vint .int 5) ∧
    LoadEnvUserParser cEmpty envC2 none none none (.ptr (.prim .string))
        (.vptrSome (.vstr "x"))
      = .panicked (needMsg (kindOfTy (.prim .string)) .struct)
          (.vptrSome (.vstr "x")) :=
  ⟨(c9_invalid_target_panics cEmpty none none none envC2).1 (.prim .int)
      (.vint .int 5) (fun te h => GoType.noConfusion h),
   (c9_invalid_target_panics cEmpty none none none envC2).2 (.prim .string)
      (.vstr "x") (by decide)⟩

/-! Claim C10. -/

/-- C10: a nil pointer field with a resolved annotation is allocated
before the parser registry is consulted: when no parser is found for the
pointee, the call still succeeds and the field is a non-nil pointer to the
pointee's zero value. -/
theorem c10_alloc_before_registry (c : Collab)
    (kwP : Option (String → Option Parser)) (tyP : Option (GoType → Option Parser))
    (kdP : Option (Kind → Option Parser)) (env : Env)
    (vt pt qt : Option String) (te : GoType) (ev kw : String)
    (ps : List String) (kws : List (String × String))
    (hE : getEnv env (.mk vt pt qt true (.ptr te)) = some (ev, kw, ps, kws))
    (hP : getParser c kwP tyP kdP kw te = none) :
    loadEnvField c kwP tyP kdP env (.mk vt pt qt true (.ptr te)) .vptrNil
      = (none, .vptrSome (zeroValue te)) := by
  rw [loadEnvField_resolved_nil c kwP tyP kdP env vt pt qt (.ptr te) ev kw ps kws hE]
  simp only [ptrElem, hP]

/-- C10 witness: a nil pointer to a function-kind value with a set
variable: no parser exists, the call succeeds, and the field is a non-nil
pointer to the zero value. -/
theorem c10_witness :
    loadEnvField cEmpty none none none envC1
        (.mk (some "V") none none true (.ptr (.prim .fn))) .vptrNil
      = (none, .vptrSome (zeroValue (.prim .fn))) :=
  c10_alloc_before_registry cEmpty none none none envC1 (some "V") none none
    (.prim .fn) "99999" "" [] [] rfl rfl

end Envldr
